import Mathlib

/-!
Shallow embedding of the `cli` Go package (argument parser, scope/context
model, help/usage renderer) for checking its natural-language specification.

The Go code mutates `Flag` and `Command` values through shared pointers.  We
model the pointer heap explicitly: flags and commands live in lists inside a
state `St`, and `Nat` indices play the role of pointers.  Go `map[string]T`
values are modelled as insertion-ordered association lists (a deterministic
refinement of Go's unordered maps: lookup/insert/delete semantics coincide;
iteration order is the insertion order).  The process environment is passed
as a function `env : String → String` (`os.Getenv` returns `""` for unset
variables).
-/

set_option maxHeartbeats 1600000

namespace CliModel

/-- Association-list lookup for string-keyed Go maps. -/
def alGet (m : List (String × Nat)) (k : String) : Option Nat :=
  match m with
  | [] => none
  | (k2, v) :: r => if k2 = k then some v else alGet r k

/-- Key-membership test for string-keyed Go maps. -/
def alHas (m : List (String × Nat)) (k : String) : Bool :=
  (alGet m k).isSome

/-- Go map assignment `m[k] = v` (overwrite in place, else append). -/
def alPut (m : List (String × Nat)) (k : String) (v : Nat) : List (String × Nat) :=
  if alHas m k then m.map (fun p => if p.1 = k then (k, v) else p) else m ++ [(k, v)]

/-- Go `delete(m, k)`. -/
def alDel (m : List (String × Nat)) (k : String) : List (String × Nat) :=
  m.filter (fun p => p.1 != k)

/-- Value of a digit list, if every character is a decimal digit (empty fails). -/
def digitsToNat? (cs : List Char) : Option Nat :=
  match cs with
  | [] => none
  | _ =>
    if cs.all (fun c => c.isDigit) then
      some (cs.foldl (fun acc c => 10 * acc + (c.toNat - '0'.toNat)) 0)
    else none

/-- Model of Go `strconv.Atoi`: optional sign followed by decimal digits. -/
def parseInt? (s : String) : Option Int :=
  match s.data with
  | '+' :: cs => (digitsToNat? cs).map (fun n => (n : Int))
  | '-' :: cs => (digitsToNat? cs).map (fun n => -(n : Int))
  | cs => (digitsToNat? cs).map (fun n => (n : Int))

/-- Split a char list at the first `'.'`, if any. -/
def splitDot (cs : List Char) : List Char × Option (List Char) :=
  match cs with
  | [] => ([], none)
  | c :: r =>
    if c = '.' then ([], some r)
    else
      let (a, b) := splitDot r
      (c :: a, b)

/-- Value of a (possibly empty) digit list; `none` on a non-digit. -/
def fracDigits? (cs : List Char) : Option Nat :=
  if cs.all (fun c => c.isDigit) then
    some (cs.foldl (fun acc c => 10 * acc + (c.toNat - '0'.toNat)) 0)
  else none

/-- Model of Go `strconv.ParseFloat` on its plain decimal fragment
(optional sign, digits, optional fractional part), with exact rational
values in place of binary floating point.  The claims exercised here only
compare which side of a range bound a value falls on, for values where the
rational and `float64` readings agree. -/
def parseFloat? (s : String) : Option ℚ :=
  let (neg, cs) :=
    match s.data with
    | '-' :: r => (true, r)
    | '+' :: r => (false, r)
    | r => (false, r)
  let (ip, fp?) := splitDot cs
  match fp? with
  | none =>
    (digitsToNat? ip).map (fun n => if neg then -(n : ℚ) else (n : ℚ))
  | some fp =>
    if ip = [] && fp = [] then none
    else
      match fracDigits? ip, fracDigits? fp with
      | some i, some f =>
        let q : ℚ := (i : ℚ) + (f : ℚ) / ((10 : ℚ) ^ fp.length)
        some (if neg then -q else q)
      | _, _ => none

/-- ASCII lower-casing, model of Go `strings.ToLower` on the inputs used. -/
def asciiLower (s : String) : String :=
  String.mk (s.data.map Char.toLower)

/-- Join a list of strings with a separator (Go `strings.Join`). -/
def sjoin (l : List String) (sep : String) : String :=
  match l with
  | [] => ""
  | [x] => x
  | x :: r => x ++ sep ++ sjoin r sep

/-- The closed set of flag types (`const String FlagType = iota; Int; Bool; Float`
style enumeration in the Go package). -/
inductive FlagType where
  | String
  | Int
  | Bool
  | Float
deriving DecidableEq, Repr

/-- The current value slot of a unified `Flag`: a variant matching the
declared type (Go `interface{}` holding `string`/`int`/`bool`/`float64`). -/
inductive FlagValue where
  | str (s : String)
  | int (i : Int)
  | bool (b : Bool)
  | float (q : ℚ)
deriving DecidableEq, Repr

/-- Modelled from the spec: the unified `Flag` struct is not under `src/`
(only its callers are: `cli.go`, `context.go`, the help printer and the
example use fields `Name`, `Char`, `Type`, `MetaVar`, `Default`, `Choices`,
`Range`, `EnvVar`, `Required`, `Usage` and a single mutable value slot).
Field `type` renders the Go field `Type` (a Lean keyword).  `Char = none`
renders Go `rune(0)` (no single-char alias).  `IntRange`/`FloatRange`
render the type-specific `Range` constraint; a degenerate range (both ends
equal) means "no range constraint", as in the typed flags of `flag.go`. -/
structure Flag where
  Name : String
  Char : Option Char := none
  type : FlagType := .String
  MetaVar : String := ""
  EnvVar : String := ""
  Required : Bool := false
  Usage : String := ""
  Choices : List String := []
  IntRange : Int × Int := (0, 0)
  FloatRange : ℚ × ℚ := (0, 0)
  value : FlagValue
deriving DecidableEq, Repr

/-- `Command` (from `command.go`): `hasAction` models the presence of the
`Action func(*Context) error` field; `Flags` and `SubCommands` hold heap
indices standing for the Go pointers. -/
structure Command where
  Name : String
  hasAction : Bool := false
  Description : String := ""
  Usage : String := ""
  Flags : List Nat := []
  InheritParentFlags : Bool := false
  SubCommands : List Nat := []
deriving DecidableEq, Repr

/-- `App` (from `cli.go`): `hasAction` models the presence of `Action`. -/
structure App where
  Name : String := ""
  Description : String := ""
  hasAction : Bool := false
  Flags : List Nat := []
  Commands : List Nat := []
  DisableHelpOption : Bool := false
  DisableHelpCommand : Bool := false
deriving DecidableEq, Repr

/-- The mutable heap: flag and command instances addressed by index, plus
the (also mutated) `App` declaration. -/
structure St where
  flags : List Flag
  cmds : List Command
  app : App
deriving DecidableEq, Repr

/-- Placeholder flag for out-of-range heap reads (never hit by the runs
modelled here). -/
def defaultFlag : Flag := { Name := "", value := .str "" }

/-- Placeholder command for out-of-range heap reads. -/
def defaultCommand : Command := { Name := "" }

def St.getFlag (st : St) (i : Nat) : Flag := st.flags.getD i defaultFlag

def St.setFlag (st : St) (i : Nat) (f : Flag) : St := { st with flags := st.flags.set i f }

def St.getCmd (st : St) (i : Nat) : Command := st.cmds.getD i defaultCommand

def St.setCmd (st : St) (i : Nat) (c : Command) : St := { st with cmds := st.cmds.set i c }

/-- The per-scope data of a `Context` (everything except the parent link). -/
structure Frame where
  command : Option Nat := none
  positionalArgs : List String := []
  scopeFlags : List (String × Nat) := []
  parsedFlags : List (String × Nat) := []
  requiredFlags : List (String × Nat) := []
  scopeCommands : List (String × Nat) := []
deriving DecidableEq, Repr

/-- `Context` (from `context.go`): a scope chain; the parent link models the
Go `parent *Context` pointer.  Ancestor frames are immutable snapshots: the
parser only ever mutates the innermost scope, and it descends only after the
parent is in its final state, so the snapshot agrees with the live pointer. -/
inductive Context where
  | mk : Frame → Option Context → Context

def Context.frame : Context → Frame
  | .mk f _ => f

/-- `GetParent` from `context.go`. -/
def Context.GetParent : Context → Option Context
  | .mk _ p => p

def Context.withFrame (c : Context) (f : Frame) : Context := .mk f c.GetParent

/-- `GetPositionals` from `context.go`. -/
def Context.GetPositionals (c : Context) : List String := c.frame.positionalArgs

/-- Printable name of a flag type, used inside error messages. -/
def flagTypeShow : FlagType → String
  | .String => "String"
  | .Int => "Int"
  | .Bool => "Bool"
  | .Float => "Float"

/-- Modelled from the spec: `Flag.Set` of the missing unified `Flag` struct
(spec 4.1): parse the token into the flag's native type (Bool accepts
case-insensitive "true"/"false" only; Int/Float use standard numeric
parsing), then validate the type-specific constraint (choice-set membership
for String, inclusive range for Int/Float, none for Bool).  The parsed value
is stored before validation runs, so a constraint violation leaves the
rejected value in place — the sequencing visible in the typed flags of
`flag.go`.  A degenerate range (lo = hi) imposes no constraint. -/
def Flag.Set (f : Flag) (v : String) : Flag × Option String :=
  match f.type with
  | .String =>
    let f2 := { f with value := FlagValue.str v }
    if f.Choices.isEmpty then (f2, none)
    else if f.Choices.contains v then (f2, none)
    else (f2, some ("illegal value for string flag \x27" ++ f.Name ++ "\x27: " ++ v ++
      " not in \x7b" ++ sjoin f.Choices ", " ++ "\x7d"))
  | .Int =>
    match parseInt? v with
    | none => (f, some ("invalid value for integer flag " ++ f.Name ++ ": " ++ v))
    | some n =>
      let f2 := { f with value := FlagValue.int n }
      if f.IntRange.1 = f.IntRange.2 then (f2, none)
      else if n < f.IntRange.1 then
        (f2, some ("illegal value for integer flag " ++ f.Name ++ ": " ++ toString n ++
          " < " ++ toString f.IntRange.1))
      else if n > f.IntRange.2 then
        (f2, some ("illegal value for integer flag " ++ f.Name ++ ": " ++ toString n ++
          " > " ++ toString f.IntRange.2))
      else (f2, none)
  | .Bool =>
    if asciiLower v = "true" then ({ f with value := FlagValue.bool true }, none)
    else if asciiLower v = "false" then ({ f with value := FlagValue.bool false }, none)
    else (f, some ("illegal value: " ++ v))
  | .Float =>
    match parseFloat? v with
    | none => (f, some ("invalid value for float flag " ++ f.Name ++ ": " ++ v))
    | some q =>
      let f2 := { f with value := FlagValue.float q }
      if f.FloatRange.1 = f.FloatRange.2 then (f2, none)
      else if q < f.FloatRange.1 then
        (f2, some ("illegal value for float flag " ++ f.Name ++ ": too small"))
      else if q > f.FloatRange.2 then
        (f2, some ("illegal value for float flag " ++ f.Name ++ ": too large"))
      else (f2, none)

/-- Modelled from the spec: `Flag.Validate` of the missing unified `Flag`
struct — the declaration check run at scope-construction time (spec 4.1
`validateDeclaration`): fails iff the name is empty. -/
def Flag.Validate (f : Flag) : Option String :=
  if f.Name = "" then some "Flag is missing name" else none

/-- Modelled from the spec: `Flag.setEnv` of the missing unified `Flag`
struct (spec 4.1 environment binding): String/Int/Float substitute the
default if the variable is non-empty and parses; Bool toggles its default
if the variable is non-empty, regardless of content. -/
def Flag.setEnv (env : String → String) (f : Flag) : Flag :=
  if f.EnvVar = "" then f
  else if env f.EnvVar = "" then f
  else
    match f.type with
    | .String => { f with value := FlagValue.str (env f.EnvVar) }
    | .Int =>
      match parseInt? (env f.EnvVar) with
      | some n => { f with value := FlagValue.int n }
      | none => f
    | .Float =>
      match parseFloat? (env f.EnvVar) with
      | some q => { f with value := FlagValue.float q }
      | none => f
    | .Bool =>
      match f.value with
      | .bool b => { f with value := FlagValue.bool (!b) }
      | _ => f

/-- Heap index conventionally holding the shared `HelpOption` instance.
Every concrete state below stores `HelpOption` at flag index 0. -/
def HelpOptionId : Nat := 0

/-- Modelled from the spec: the implicit help flag `--help`/`-h` injected by
`NewContext` unless disabled (its declaration is not under `src/`; usage
text taken from the package example's output). -/
def HelpOption : Flag :=
  { Name := "help", Char := some 'h', type := .Bool,
    Usage := "Display this help message", value := .bool false }

/-- Heap index conventionally holding the shared `HelpCommand` instance.
Every concrete state below stores `HelpCommand` at command index 0. -/
def HelpCommandId : Nat := 0

/-- Modelled from the spec: the implicit `help` subcommand injected by
`NewContext` unless disabled (declaration not under `src/`; it carries an
action — it prints help for its argument). -/
def HelpCommand : Command :=
  { Name := "help", hasAction := true,
    Usage := "Show help for command given as argument" }

/-- The `for _, cmd := range ...` registration loop of `NewContext`:
`cmd.Validate()` always succeeds (`command.go` returns nil), then the
command is registered under its name. -/
def registerCommands (st : St) (fr : Frame) : List Nat → Frame
  | [] => fr
  | cid :: rest =>
    registerCommands st
      { fr with scopeCommands := alPut fr.scopeCommands (st.getCmd cid).Name cid } rest

/-- The `for _, flag := range *flags` loop of `NewContext`: validate the
declaration, register under the long name and (if present) the char alias,
track required flags, and bind the environment default. -/
def registerFlags (env : String → String) (st : St) (fr : Frame) :
    List Nat → St × Frame × Option String
  | [] => (st, fr, none)
  | fid :: rest =>
    let f := st.getFlag fid
    match f.Validate with
    | some e => (st, fr, some e)
    | none =>
      let fr := { fr with scopeFlags := alPut fr.scopeFlags f.Name fid }
      let fr :=
        if f.Required then { fr with requiredFlags := alPut fr.requiredFlags f.Name fid }
        else fr
      let fr :=
        match f.Char with
        | some c => { fr with scopeFlags := alPut fr.scopeFlags (Char.toString c) fid }
        | none => fr
      let st := st.setFlag fid (f.setEnv env)
      registerFlags env st fr rest

/-- The final stage of `NewContext`: run the flag-registration loop over
the scope's (mutated) flag list and build the scope, or fail with the
first declaration error. -/
def finishScope (env : String → String) (parent : Option Context) (st : St)
    (fr : Frame) (flags : List Nat) : St × Except String Context :=
  match registerFlags env st fr flags with
  | (st, _, some e) => (st, .error e)
  | (st, fr, none) => (st, .ok (.mk fr parent))

/-- `NewContext` from `context.go`.  `cmd = none` builds the root scope
(and appends the implicit help command to `app.Commands` when commands
exist); `cmd = some cid` builds a command scope (appending the implicit
help command to that command's `SubCommands` when it has subcommands, and
copying the parent's alias table when `InheritParentFlags` is set).  In
both cases the implicit help flag is appended to the scope's own flag list
(unless disabled, or the scope is the `help` command itself) before the
flag-registration loop runs over that (mutated) list. -/
def NewContext (env : String → String) (st : St) (parent : Option Context)
    (cmd : Option Nat) : St × Except String Context :=
  match cmd with
  | none =>
    let (st, fr) :=
      if !st.app.DisableHelpCommand && !st.app.Commands.isEmpty then
        ({ st with app := { st.app with Commands := st.app.Commands ++ [HelpCommandId] } },
         ({ scopeCommands := alPut [] (st.getCmd HelpCommandId).Name HelpCommandId } : Frame))
      else (st, ({} : Frame))
    let fr := registerCommands st fr st.app.Commands
    let (st, fr) :=
      if !st.app.DisableHelpOption then
        ({ st with app := { st.app with Flags := st.app.Flags ++ [HelpOptionId] } },
         { fr with scopeFlags := alPut fr.scopeFlags (st.getFlag HelpOptionId).Name HelpOptionId })
      else (st, fr)
    finishScope env parent st fr st.app.Flags
  | some cid =>
    let st :=
      if !st.app.DisableHelpCommand && !(st.getCmd cid).SubCommands.isEmpty then
        st.setCmd cid
          { st.getCmd cid with SubCommands := (st.getCmd cid).SubCommands ++ [HelpCommandId] }
      else st
    let c := st.getCmd cid
    let fr : Frame := { command := some cid }
    let fr :=
      if c.InheritParentFlags then
        { fr with scopeFlags := (parent.map (fun p => p.frame.scopeFlags)).getD [] }
      else fr
    let fr := registerCommands st fr c.SubCommands
    let (st, fr) :=
      if !st.app.DisableHelpOption && !(c.Name = "help") then
        (st.setCmd cid { c with Flags := c.Flags ++ [HelpOptionId] },
         { fr with scopeFlags := alPut fr.scopeFlags (st.getFlag HelpOptionId).Name HelpOptionId })
      else (st, fr)
    finishScope env parent st fr (st.getCmd cid).Flags

/-- Result of `parseArg` (Go returns `interface{}`): a pending flag, a
command, a positional string, or nothing (`--flag=value` already consumed). -/
inductive ParseRet where
  | flag (fid : Nat)
  | cmd (cid : Nat)
  | positional (s : String)
  | consumed

/-- Strip one leading occurrence of `p` (Go `strings.TrimPrefix`). -/
def goTrimPfx (s p : String) : String :=
  if p.data.isPrefixOf s.data then String.mk (s.data.drop p.data.length) else s

/-- `strings.SplitN(s, "=", 2)` on a char list: key before the first `'='`,
and the remainder after it if one exists. -/
def splitEq (cs : List Char) : List Char × Option (List Char) :=
  match cs with
  | [] => ([], none)
  | c :: rest =>
    if c = '=' then ([], some rest)
    else
      let (k, v) := splitEq rest
      (c :: k, v)

/-- The non-final-character loop of the compound short-flag branch of
`parseArg` (`cli.go`): each character must name a flag in scope; booleans
are set true; non-booleans are collected in `nonBools`; each is
duplicate-checked and recorded as parsed, and removed from the required
set.  Errors abort the loop with the heap/scope mutations made so far. -/
def compoundLoop (st : St) (ctx : Context) (nonBools : List Char) :
    List Char → St × Context × Except String (List Char)
  | [] => (st, ctx, .ok nonBools)
  | c :: rest =>
    match alGet ctx.frame.scopeFlags (Char.toString c) with
    | none => (st, ctx, .error ("unrecognized option: " ++ Char.toString c))
    | some fid =>
      let f := st.getFlag fid
      let st := if f.type = .Bool then st.setFlag fid { f with value := .bool true } else st
      let nonBools := if f.type = .Bool then nonBools else nonBools ++ [c]
      let ctx := ctx.withFrame
        { ctx.frame with requiredFlags := alDel ctx.frame.requiredFlags f.Name }
      if alHas ctx.frame.parsedFlags f.Name then
        (st, ctx, .error ("flag provided more than once: " ++ f.Name))
      else
        compoundLoop st
          (ctx.withFrame { ctx.frame with parsedFlags := alPut ctx.frame.parsedFlags f.Name fid })
          nonBools rest

/-- The `CompoundTypeError` message of `parseArg` (`%v` prints a Go string
slice as `[a b]`). -/
def compoundMsg (nonBools : List Char) (arg : String) : String :=
  "non-boolean flag(s) [" ++ sjoin (nonBools.map Char.toString) " " ++
    "] cannot be used in a compound expression \x27" ++ arg ++ "\x27"

/-- `parseArg` from `cli.go`: classify one token against the current scope.
Mutations made before an error (boolean sets, parsed/required bookkeeping,
`--flag=value` assignment) are kept, as in the Go original. -/
def parseArg (st : St) (ctx : Context) (arg : String) :
    St × Context × Except String ParseRet :=
  if ("--").data.isPrefixOf arg.data then
    if arg = "--" then (st, ctx, .ok (.positional arg))
    else
      let flagName := goTrimPfx arg "--"
      let (key, val?) := splitEq flagName.data
      let key := String.mk key
      match alGet ctx.frame.scopeFlags key with
      | none => (st, ctx, .error ("unrecognized flag: " ++ arg))
      | some fid =>
        if alHas ctx.frame.parsedFlags key then
          (st, ctx, .error ("flag provided more than once: " ++ key))
        else
          match val? with
          | some v =>
            let (f2, err?) := (st.getFlag fid).Set (String.mk v)
            let st := st.setFlag fid f2
            match err? with
            | some e => (st, ctx, .error e)
            | none =>
              let ctx := ctx.withFrame
                { ctx.frame with parsedFlags := alPut ctx.frame.parsedFlags key fid }
              let ctx := ctx.withFrame
                { ctx.frame with
                  requiredFlags := alDel ctx.frame.requiredFlags (st.getFlag fid).Name }
              (st, ctx, .ok .consumed)
          | none =>
            let ctx := ctx.withFrame
              { ctx.frame with
                requiredFlags := alDel ctx.frame.requiredFlags (st.getFlag fid).Name }
            (st, ctx, .ok (.flag fid))
  else if ("-").data.isPrefixOf arg.data then
    if arg = "-" then (st, ctx, .ok (.positional arg))
    else
      let chars := arg.data.drop 1
      match compoundLoop st ctx [] chars.dropLast with
      | (st, ctx, .error e) => (st, ctx, .error e)
      | (st, ctx, .ok nonBools) =>
        if !nonBools.isEmpty then (st, ctx, .error (compoundMsg nonBools arg))
        else
          match chars.getLast? with
          | none => (st, ctx, .error "unrecognized option: ")
          | some c =>
            match alGet ctx.frame.scopeFlags (Char.toString c) with
            | some fid =>
              let f := st.getFlag fid
              if alHas ctx.frame.parsedFlags f.Name then
                (st, ctx, .error ("flag provided more than once: " ++ f.Name))
              else
                let ctx := ctx.withFrame
                  { ctx.frame with requiredFlags := alDel ctx.frame.requiredFlags f.Name }
                if f.type = .Bool then
                  let st := st.setFlag fid { f with value := .bool true }
                  let ctx := ctx.withFrame
                    { ctx.frame with parsedFlags := alPut ctx.frame.parsedFlags f.Name fid }
                  (st, ctx, .ok (.flag fid))
                else (st, ctx, .ok (.flag fid))
            | none => (st, ctx, .error ("unrecognized option: " ++ Char.toString c))
  else
    match alGet ctx.frame.scopeCommands arg with
    | some cid => (st, ctx, .ok (.cmd cid))
    | none => (st, ctx, .ok (.positional arg))

/-- The is-the-value-actually-a-flag-or-command precheck of
`Context.assignFlag` (`context.go`): performed only for Int/Float pending
flags; the token stripped of `-` when two characters long, of `--`
otherwise, is looked up among the scope's flags, and the raw token among
its commands. -/
def assignFlagCheck (ctx : Context) (arg : String) (flag : Flag) : Option String :=
  if flag.type ≠ .Bool ∧ flag.type ≠ .String then
    if alHas ctx.frame.scopeFlags
        (if arg.data.length = 2 then goTrimPfx arg "-" else goTrimPfx arg "--") then
      some ("error parsing arguments: expected value of type " ++ flagTypeShow flag.type ++
        ", found flag: " ++ arg)
    else if alHas ctx.frame.scopeCommands arg then
      some ("error parsing arguments: expected value of type " ++ flagTypeShow flag.type ++
        ", found command: " ++ arg)
    else none
  else none

/-- `Context.assignFlag` from `context.go`: try to use `arg` as the value
of the pending flag.  An Int/Float pending flag first runs the precheck
above and errors immediately when it hits.  Otherwise `Flag.Set` runs; on
failure a Bool flag falls back to true with no error (reporting the token
unused), while any other type propagates the error (the heap keeping the
partial mutation `Set` made).  Returns (state, scope, consumed, error). -/
def assignFlag (st : St) (ctx : Context) (arg : String) (fid : Nat) :
    St × Context × Bool × Option String :=
  match assignFlagCheck ctx arg (st.getFlag fid) with
  | some e => (st, ctx, false, some e)
  | none =>
    match (st.getFlag fid).Set arg with
    | (f2, some e) =>
      if (st.getFlag fid).type = .Bool then
        (st.setFlag fid (f2.Set "true").1, ctx, false, none)
      else (st.setFlag fid f2, ctx, false, some e)
    | (f2, none) =>
      (st.setFlag fid f2,
       ctx.withFrame
         { ctx.frame with
           parsedFlags := alPut ctx.frame.parsedFlags (st.getFlag fid).Name fid },
       true, none)

/-- One `Ready`-state step of `parseArgs` (`cli.go`): classify `arg`, then
either continue with an updated state and possibly a pending flag
(`Sum.inl`), or terminate the whole parse (`Sum.inr`): on error, on a
failed child-scope construction, or on `--` (which appends `arg :: rest` —
the `--` token itself included — to the positionals and succeeds). -/
def readyStep (env : String → String) (st : St) (ctx : Context) (arg : String)
    (rest : List String) :
    (St × Context × Option Nat) ⊕ (St × Option Context × Option String) :=
  match parseArg st ctx arg with
  | (st, ctx, .error e) => .inr (st, some ctx, some e)
  | (st, ctx, .ok (.flag fid)) =>
    let f := st.getFlag fid
    if f.type = .Bool then
      .inl (st.setFlag fid { f with value := .bool true },
        ctx.withFrame { ctx.frame with parsedFlags := alPut ctx.frame.parsedFlags f.Name fid },
        some fid)
    else .inl (st, ctx, some fid)
  | (st, ctx, .ok (.cmd cid)) =>
    match NewContext env st (some ctx) (some cid) with
    | (st, .error e) => .inr (st, none, some e)
    | (st, .ok ctx2) => .inl (st, ctx2, none)
  | (st, ctx, .ok (.positional p)) =>
    if p = "--" then
      .inr (st, some (ctx.withFrame
        { ctx.frame with positionalArgs := ctx.frame.positionalArgs ++ arg :: rest }), none)
    else
      .inl (st, ctx.withFrame
        { ctx.frame with positionalArgs := ctx.frame.positionalArgs ++ [p] }, none)
  | (st, ctx, .ok .consumed) => .inl (st, ctx, none)

/-- The end-of-input check of `parseArgs`: a still-pending String/Int/Float
flag is a missing-value error; a pending Bool flag is fine. -/
def finishParse (st : St) (ctx : Context) (lastFlag : Option Nat) :
    St × Option Context × Option String :=
  match lastFlag with
  | some fid =>
    match (st.getFlag fid).type with
    | .Bool => (st, some ctx, none)
    | _ =>
      (st, some ctx,
        some ("The following flag is missing a value: " ++ (st.getFlag fid).Name))
  | none => (st, some ctx, none)

/-- The main loop of `App.parseArgs` (`cli.go`): one iteration per token;
a pending flag first tries to take the token as its value (`assignFlag`),
and on a non-consuming, non-error outcome the same token is re-classified
fresh by `readyStep`. -/
def parseArgsAux (env : String → String) (st : St) (ctx : Context)
    (lastFlag : Option Nat) : List String → St × Option Context × Option String
  | [] => finishParse st ctx lastFlag
  | arg :: rest =>
    match lastFlag with
    | some fid =>
      match assignFlag st ctx arg fid with
      | (st, ctx, _, some e) => (st, some ctx, some e)
      | (st, ctx, true, none) => parseArgsAux env st ctx none rest
      | (st, ctx, false, none) =>
        match readyStep env st ctx arg rest with
        | .inl (st, ctx, lf) => parseArgsAux env st ctx lf rest
        | .inr r => r
    | none =>
      match readyStep env st ctx arg rest with
      | .inl (st, ctx, lf) => parseArgsAux env st ctx lf rest
      | .inr r => r

/-- `App.parseArgs` from `cli.go`. -/
def parseArgs (env : String → String) (st : St) (args : List String)
    (ctx : Context) : St × Option Context × Option String :=
  parseArgsAux env st ctx none args

/-- The scope walk of `Context.Int` (`context.go`): `acc` carries the Go
`ret` variable across iterations.  Finding the name with an int value and
the name in `parsedFlags` stops with `(value, true)`; finding it with an
int value but unset updates `ret` and walks on; a value of another dynamic
type breaks out with the accumulated `ret` and `false`. -/
def ctxIntAux (st : St) (name : String) (acc : Int) : Context → Int × Bool
  | .mk fr p =>
    match alGet fr.scopeFlags name with
    | some fid =>
      match (st.getFlag fid).value with
      | .int v =>
        if alHas fr.parsedFlags name then (v, true)
        else
          match p with
          | none => (v, false)
          | some c => ctxIntAux st name v c
      | _ => (acc, false)
    | none =>
      match p with
      | none => (acc, false)
      | some c => ctxIntAux st name acc c

/-- `Context.Int` from `context.go`. -/
def Context.Int (st : St) (ctx : Context) (name : String) : Int × Bool :=
  ctxIntAux st name 0 ctx

/-- The scope walk of `Context.Bool` (`context.go`), same shape as the int
walk. -/
def ctxBoolAux (st : St) (name : String) (acc : Bool) : Context → Bool × Bool
  | .mk fr p =>
    match alGet fr.scopeFlags name with
    | some fid =>
      match (st.getFlag fid).value with
      | .bool v =>
        if alHas fr.parsedFlags name then (v, true)
        else
          match p with
          | none => (v, false)
          | some c => ctxBoolAux st name v c
      | _ => (acc, false)
    | none =>
      match p with
      | none => (acc, false)
      | some c => ctxBoolAux st name acc c

/-- `Context.Bool` from `context.go`. -/
def Context.Bool (st : St) (ctx : Context) (name : String) : Bool × Bool :=
  ctxBoolAux st name false ctx

/-- The scope walk of `Context.String` (`context.go`). -/
def ctxStringAux (st : St) (name : String) (acc : String) : Context → String × Bool
  | .mk fr p =>
    match alGet fr.scopeFlags name with
    | some fid =>
      match (st.getFlag fid).value with
      | .str v =>
        if alHas fr.parsedFlags name then (v, true)
        else
          match p with
          | none => (v, false)
          | some c => ctxStringAux st name v c
      | _ => (acc, false)
    | none =>
      match p with
      | none => (acc, false)
      | some c => ctxStringAux st name acc c

/-- `Context.String` from `context.go`. -/
def ctxString (st : St) (ctx : Context) (name : String) : String × Bool :=
  ctxStringAux st name "" ctx

/-- What `App.Run` does after parsing, observationally: which error it
reports, or which action it dispatches. -/
inductive RunOutcome where
  | configError (msg : String)
  | parseError (msg : String)
  | helpShown
  | missingRequired (msg : String)
  | printedHelp
  | ranApp
  | ranCommand (name : String)
deriving DecidableEq, Repr

/-- The `missingFlags += "--" + k + " "` accumulation loop of `App.Run`. -/
def requiredNames : List String → String
  | [] => ""
  | k :: r => "--" ++ k ++ " " ++ requiredNames r

/-- The missing-required-flags message built by `App.Run` (`cli.go`),
iterating over the deepest scope's `requiredFlags` in map order (modelled
as insertion order). -/
def requiredMsg (names : List String) : String :=
  "Error: missing argument(s): [ " ++ requiredNames names ++ "]"

/-- The post-parse decision sequence of `App.Run` (`cli.go`), in source
order: honor the help flag; report the deepest scope's own missing required
flags; dispatch the selected command's action, the app action, or print
help when the relevant action is absent. -/
def runVerdict (st : St) (ctx : Context) : RunOutcome :=
  if (Context.Bool st ctx "help").1 then .helpShown
  else if !ctx.frame.requiredFlags.isEmpty then
    .missingRequired (requiredMsg (ctx.frame.requiredFlags.map (fun p => p.1)))
  else
    match ctx.frame.command with
    | none => if st.app.hasAction then .ranApp else .printedHelp
    | some cid =>
      if (st.getCmd cid).hasAction then .ranCommand (st.getCmd cid).Name
      else .printedHelp

/-- `App.Run` from `cli.go`: build the root context, parse, report a parse
error if any, and otherwise apply the post-parse decisions of `runVerdict`
to the deepest scope. -/
def Run (env : String → String) (st : St) (args : List String) : St × RunOutcome :=
  match NewContext env st none none with
  | (st, .error e) => (st, .configError e)
  | (st, .ok appCtx) =>
    match parseArgs env st args appCtx with
    | (st, _, some e) => (st, .parseError e)
    | (st, octx, none) => (st, runVerdict st (octx.getD appCtx))

/-- `bytes.Index` for a single character needle, returning -1 when absent. -/
def bIndex (l : List Char) (c : Char) : Int :=
  match l.findIdx? (fun x => x = c) with
  | some i => (i : Int)
  | none => -1

/-- `bytes.LastIndex` for a single character needle. -/
def bLastIndex (l : List Char) (c : Char) : Int :=
  match l.reverse.findIdx? (fun x => x = c) with
  | some i => ((l.length - 1 - i : Nat) : Int)
  | none => -1

/-- Number of leading spaces of a char list (the whitespace-trimming loop
inside the indent branch of `HelpPrinter.Write`). -/
def countSpaces : List Char → Nat
  | c :: r => if c = ' ' then countSpaces r + 1 else 0
  | [] => 0

/-- The margin-aware line writer (`HelpPrinter` of the help printer file):
`buf` is the output buffer; `LeftMargin`/`RightMargin` are the mutable
margins; `cursor` is the current column. -/
structure HelpPrinter where
  buf : List Char
  width : Int
  columnWidth : Int
  RightMargin : Int
  cursor : Int
  LeftMargin : Int
deriving DecidableEq, Repr

/-- `NewHelpPrinter`, with the probed terminal width passed in: widths
below 10 fall back to 80; the description column is `0.3 * width` (integer
part — exact for the widths used here) capped at 35. -/
def NewHelpPrinter (width0 : Int) : HelpPrinter :=
  let width := if width0 < 10 then 80 else width0
  let columnWidth := min (3 * width / 10) 35
  { buf := [], width := width, columnWidth := columnWidth,
    RightMargin := width, cursor := 0, LeftMargin := 0 }

/-- The loop of `HelpPrinter.Write`, fuelled (the Go loop's progress
argument is metatheoretic; the fuel chosen by `hpWrite` is large enough
that it is never exhausted on any input).  `n` is the Go `N` (consumed
bytes of `p`), `extra` the Go `NumExtraChars` (emitted indentation and
inserted newlines).  The two Go statements `if lineSpace > len(pp) {...}
else if lineSpace <= 0 {...}` fold into the `ls ≤ 0` test first: `pp` is
non-empty here, so `ls > len(pp)` and `ls ≤ 0` are mutually exclusive. -/
def hpWriteGo : HelpPrinter → List Char → Nat → Nat → Nat → HelpPrinter × Nat
  | hp, _, n, extra, 0 => (hp, n + extra)
  | hp, p, n, extra, fuel + 1 =>
    if n < p.length then
      let pp := p.drop n
      if hp.cursor < hp.LeftMargin then
        let k := (hp.LeftMargin - hp.cursor).toNat
        hpWriteGo { hp with buf := hp.buf ++ List.replicate k ' ', cursor := hp.cursor + k }
          p (n + countSpaces pp) (extra + k) fuel
      else
        let ls := hp.RightMargin - hp.cursor
        if ls ≤ 0 then
          hpWriteGo { hp with buf := hp.buf ++ ['\x0a'], cursor := 0 } p n (extra + 1) fuel
        else
          let lineSpace := if ls > (pp.length : Int) then pp.length else ls.toNat
          let window := pp.take lineSpace
          if bIndex window '\x0a' ≥ 0 then
            let k := (bIndex window '\x0a').toNat + 1
            hpWriteGo { hp with buf := hp.buf ++ pp.take k, cursor := 0 } p (n + k) extra fuel
          else if bLastIndex window ' ' ≥ 0 then
            let k := (bLastIndex window ' ').toNat + 1
            hpWriteGo { hp with buf := hp.buf ++ pp.take k, cursor := hp.cursor + k } p
              (n + k) extra fuel
          else
            let idx := if bIndex pp ' ' ≥ 0 then (bIndex pp ' ').toNat else pp.length
            if lineSpace ≥ idx then
              hpWriteGo { hp with buf := hp.buf ++ pp, cursor := hp.cursor + pp.length } p
                (n + pp.length) extra fuel
            else if (idx : Int) > hp.RightMargin - hp.LeftMargin then
              hpWriteGo { hp with buf := hp.buf ++ window, cursor := hp.cursor + lineSpace }
                p (n + lineSpace) extra fuel
            else
              hpWriteGo { hp with buf := hp.buf ++ ['\x0a'], cursor := 0 } p n (extra + 1)
                fuel
    else (hp, n + extra)

/-- `HelpPrinter.Write`: entry margin sanity reset, then the fuelled loop;
returns the printer and the reported byte count (consumed + inserted). -/
def hpWrite (hp : HelpPrinter) (p : List Char) : HelpPrinter × Nat :=
  let hp :=
    if hp.RightMargin ≤ hp.LeftMargin then { hp with LeftMargin := 0, RightMargin := 80 }
    else hp
  hpWriteGo hp p 0 0 (4 * p.length + 8)

/-- The per-flag word of `writeUsage`: char alias preferred over the long
name; metavar appended (default `value` for non-Bool); required flags get a
leading space, optional ones brackets. -/
def flagWord (st : St) (fid : Nat) : String :=
  let f := st.getFlag fid
  let word :=
    match f.Char with
    | some c => "-" ++ Char.toString c
    | none => "--" ++ f.Name
  let word :=
    if f.MetaVar = "" then (if f.type = .Bool then word else word ++ " value")
    else word ++ " " ++ f.MetaVar
  if f.Required then " " ++ word else " [" ++ word ++ "]"

/-- The flag loop of `writeUsage`: words that would overrun the right
margin are preceded by a newline. -/
def writeUsageFlags (st : St) (hp : HelpPrinter) : List Nat → HelpPrinter
  | [] => hp
  | fid :: rest =>
    let word := flagWord st fid
    let word :=
      if hp.cursor + (word.data.length : Int) > hp.RightMargin then "\x0a" ++ word else word
    let hp := (hpWrite hp word.data).1
    writeUsageFlags st hp rest

/-- `cmdString[:len-1] + suffix`: drop the trailing comma, append suffix. -/
def cmdJoin (st : St) (base : String) (ids : List Nat) (suffix : String) : String :=
  let s := ids.foldl (fun acc cid => acc ++ (st.getCmd cid).Name ++ ",") base
  String.mk s.data.dropLast ++ suffix

/-- The trailing command summary of `writeUsage`: for a command scope,
`{a,b}` when the command has no action else `[a,b]`; for the root scope the
same decision on the app (with the base string the code actually uses);
two characters or fewer collapse to the empty string. -/
def usageCmdString (st : St) (ctx : Context) : String :=
  let s :=
    match ctx.frame.command with
    | some cid =>
      let c := st.getCmd cid
      if c.SubCommands.length > 0 then
        if !c.hasAction then cmdJoin st " \x7b" c.SubCommands "\x7d"
        else cmdJoin st " [" c.SubCommands "]"
      else " ["
    | none =>
      if st.app.Commands.length > 0 then
        if !st.app.hasAction then cmdJoin st "\x7d" st.app.Commands "\x7d"
        else cmdJoin st " [" st.app.Commands "]"
      else " ["
  if s.data.length ≤ 2 then "" else s

/-- `writeUsage` of the help printer: the `Usage:` header (setting the left
margin to its width when it fits), the required-then-optional flag words,
and the command summary flushed with a final newline. -/
def writeUsage (st : St) (ctx : Context) (execStr : String)
    (required optional : List Nat) (hp : HelpPrinter) : HelpPrinter :=
  let (hp, n) := hpWrite hp ("Usage: " ++ execStr).data
  let hp := if (n : Int) < hp.width then { hp with LeftMargin := (n : Int) } else hp
  let hp := writeUsageFlags st hp (required ++ optional)
  let (hp, _) := hpWrite hp (usageCmdString st ctx ++ "\x0a").data
  hp

/-- `getOptionalAndRequired` of the help printer: stable split of a flag
list into (optional, required). -/
def getOptionalAndRequired (st : St) (flags : List Nat) : List Nat × List Nat :=
  (flags.filter (fun fid => !(st.getFlag fid).Required),
   flags.filter (fun fid => (st.getFlag fid).Required))

/-- The scope-chain walk of `initPrint` for a command scope: collect the
flags of each scope outward, stopping after the first non-inheriting
command; build the `cmd sub sub` executable string. -/
def initPrintWalk (st : St) (prog : String) : Context → List Nat × String
  | .mk fr p =>
    match fr.command with
    | none => (st.app.Flags, "")
    | some cid =>
      let c := st.getCmd cid
      if c.InheritParentFlags then
        match p with
        | some parent =>
          let (fs, ex) := initPrintWalk st prog parent
          (c.Flags ++ fs, ex ++ c.Name ++ " ")
        | none => (c.Flags, c.Name ++ " ")
      else (c.Flags, c.Name ++ " ")

/-- `initPrint` of the help printer: flags and executable string for the
usage line (`prog` stands for `os.Args[0]`). -/
def initPrint (st : St) (prog : String) (ctx : Context) : List Nat × String :=
  match ctx.frame.command with
  | none => (st.app.Flags, prog)
  | some _ =>
    let (fs, ex) := initPrintWalk st prog ctx
    (fs, prog ++ " " ++ ex)

/-- `PrintUsage` of the help printer, as the string it sends to the
terminal (width is the probed terminal width). -/
def PrintUsage (st : St) (ctx : Context) (prog : String) (width : Int) : String :=
  let (flags, execStr) := initPrint st prog ctx
  let (opt, req) := getOptionalAndRequired st flags
  String.mk (writeUsage st ctx execStr req opt (NewHelpPrinter width)).buf

/-! The per-type flag variants of `flag.go` (the interface-based revisions
cited by the claims): `Set` assigns the parsed token into the value slot
and only then validates, so a constraint violation leaves the rejected
value behind. -/

/-- `StringFlag` from `flag.go`. -/
structure StringFlag where
  Name : String
  Char : Option Char := none
  EnvVar : String := ""
  Required : Bool := false
  Usage : String := ""
  Value : String := ""
  Choices : List String := []
  isInitialized : Bool := false
deriving DecidableEq, Repr

/-- `StringFlag.Validate` from `flag.go`: name check, one-time environment
initialization, then the choice-set check against the current value.
Returns the (possibly env-initialized) flag and the error, modelling the
Go method's receiver mutation. -/
def StringFlag.Validate (env : String → String) (f : StringFlag) :
    StringFlag × Option String :=
  if f.Name = "" then (f, some "StringFlag is missing name")
  else
    let f :=
      if !f.isInitialized && f.EnvVar ≠ "" then
        if env f.EnvVar ≠ "" then
          { f with Value := env f.EnvVar, isInitialized := true }
        else { f with isInitialized := true }
      else f
    if f.Choices.isEmpty then (f, none)
    else if f.Choices.contains f.Value then (f, none)
    else
      (f, some ("illegal value for string flag \x27" ++ f.Name ++ "\x27: " ++ f.Value ++
        " not in \x7b" ++ sjoin f.Choices ", " ++ "\x7d"))

/-- `StringFlag.Set` from `flag.go`: assign, then validate. -/
def StringFlag.Set (env : String → String) (f : StringFlag) (value : String) :
    StringFlag × Option String :=
  StringFlag.Validate env { f with Value := value }

/-- `IntFlag` from `flag.go` (`Range` is the inclusive `[2]int` bound pair). -/
structure IntFlag where
  Name : String
  Char : Option Char := none
  EnvVar : String := ""
  Required : Bool := false
  Usage : String := ""
  Value : Int := 0
  Range : Int × Int := (0, 0)
deriving DecidableEq, Repr

/-- `IntFlag.Validate` from `flag.go` (the revision cited by the claims
checks the range unconditionally). -/
def IntFlag.Validate (f : IntFlag) : Option String :=
  if f.Name = "" then some "IntFlag is missing name"
  else if f.Value < f.Range.1 then
    some ("illegal value for integer flag " ++ f.Name ++ ": " ++ toString f.Value ++
      " < " ++ toString f.Range.1)
  else if f.Value > f.Range.2 then
    some ("illegal value for integer flag " ++ f.Name ++ ": " ++ toString f.Value ++
      " > " ++ toString f.Range.2)
  else none

/-- `IntFlag.Set` from `flag.go`: `f.Value, err = strconv.Atoi(value)` (a
failed `Atoi` stores Go's zero result), then validate. -/
def IntFlag.Set (f : IntFlag) (value : String) : IntFlag × Option String :=
  match parseInt? value with
  | none =>
    ({ f with Value := 0 },
     some ("invalid value for integer flag " ++ f.Name ++ ": " ++ value))
  | some n =>
    let f := { f with Value := n }
    (f, f.Validate)

/-- `FloatFlag` from `flag.go`, with exact rationals in place of `float64`. -/
structure FloatFlag where
  Name : String
  Char : Option Char := none
  EnvVar : String := ""
  Required : Bool := false
  Usage : String := ""
  Value : ℚ := 0
  Range : ℚ × ℚ := (0, 0)
deriving DecidableEq, Repr

/-- `FloatFlag.Validate` from `flag.go`: the range check is guarded by
`Range[0] != Range[1]`. -/
def FloatFlag.Validate (f : FloatFlag) : Option String :=
  if f.Name = "" then some "FloatFlag is missing name"
  else if f.Range.1 ≠ f.Range.2 then
    if f.Value < f.Range.1 then
      some ("illegal value for float flag " ++ f.Name ++ ": too small")
    else if f.Value > f.Range.2 then
      some ("illegal value for integer flag " ++ f.Name ++ ": too large")
    else none
  else none

/-- `FloatFlag.Set` from `flag.go`: parse (a failed parse stores Go's zero
result), then validate. -/
def FloatFlag.Set (f : FloatFlag) (value : String) : FloatFlag × Option String :=
  match parseFloat? value with
  | none =>
    ({ f with Value := 0 },
     some ("invalid value for integer flag " ++ f.Name ++ ": " ++ value))
  | some q =>
    let f := { f with Value := q }
    (f, f.Validate)

/-! Concrete app declarations used to exercise the claims. -/

/-- The constant empty environment (`os.Getenv` finds nothing). -/
def emptyEnv : String → String := fun _ => ""

/-- App flag `--count` (char alias `c`) of type Int with default 0. -/
def countFlag : Flag := { Name := "count", Char := some 'c', type := .Int, value := .int 0 }

/-- Command `run` with an action and `inherit-parent-flags = false`. -/
def runCmd : Command := { Name := "run", hasAction := true, InheritParentFlags := false }

/-- App with flag `--count` (char alias `c`) and command `run`; flag slot 0 and command
slot 0 hold the shared `HelpOption`/`HelpCommand` instances. -/
def stC1 : St :=
  { flags := [HelpOption, countFlag], cmds := [HelpCommand, runCmd],
    app := { Name := "app", hasAction := true, Flags := [1], Commands := [1] } }

/-- The heap after `stC1`'s root scope construction (checked against
`NewContext` by the anchor lemma `c1_root_eq` below): the implicit help
flag and help command are appended to the app's declaration lists. -/
def c1rootSt : St :=
  { stC1 with app := { stC1.app with Flags := [1, 0], Commands := [1, 0] } }

/-- The root frame `NewContext` builds for `stC1`. -/
def c1Frame : Frame :=
  { scopeFlags := [("help", 0), ("count", 1), ("c", 1), ("h", 0)],
    scopeCommands := [("help", 0), ("run", 1)] }

/-- The root scope of `stC1`. -/
def c1rootCtx : Context := .mk c1Frame none

/-- The heap after parsing `["-c", "5", "run"]` against `stC1`'s root
scope (anchor `c1_parse_eq`): `count` holds 5 and the help flag was
appended to `run`'s own flag list when its scope was built. -/
def c1pSt : St :=
  { flags := [HelpOption, { countFlag with value := .int 5 }],
    cmds := [HelpCommand, { runCmd with Flags := [0] }],
    app := c1rootSt.app }

/-- The scope chain after parsing `["-c", "5", "run"]`: the `run` scope
(holding only the help aliases) whose parent is the root scope with
`count` recorded as parsed. -/
def c1pCtx : Context :=
  .mk { command := some 1, scopeFlags := [("help", 0), ("h", 0)] }
    (some (.mk { c1Frame with parsedFlags := [("count", 1)] } none))

/-- The parse of `["-c", "5", "run"]` against `stC1`. -/
def c1parse : St × Option Context × Option String :=
  parseArgsAux emptyEnv c1rootSt c1rootCtx none ["-c", "5", "run"]

/-- The Int lookup for `count` performed inside the `run` scope after the
C1 parse (`none` if the parse did not succeed). -/
def c1innerInt : Option (Int × Bool) :=
  match c1parse with
  | (st, some ctx, none) => some (Context.Int st ctx "count")
  | _ => none

/-- The Int lookup for `count` performed on the parent (root) scope after
the C1 parse. -/
def c1parentInt : Option (Int × Bool) :=
  match c1parse with
  | (st, some ctx, none) => ctx.GetParent.map (fun p => Context.Int st p "count")
  | _ => none

/-- Required String flag `--name`. -/
def nameFlagReq : Flag :=
  { Name := "name", type := .String, Required := true, value := .str "" }

/-- Required String flag `--mail`. -/
def mailFlagReq : Flag :=
  { Name := "mail", type := .String, Required := true, value := .str "" }

/-- App with a required root flag `--name` and command `run`: descending
into `run` leaves the root's missing required flag unchecked. -/
def stC2 : St :=
  { flags := [HelpOption, nameFlagReq], cmds := [HelpCommand, runCmd],
    app := { Name := "app", hasAction := true, Flags := [1], Commands := [1] } }

/-- App with two required root flags and no commands. -/
def stC2w : St :=
  { flags := [HelpOption, nameFlagReq, mailFlagReq], cmds := [HelpCommand],
    app := { Name := "app", hasAction := true, Flags := [1, 2], Commands := [] } }

/-- The heap after `stC2`'s root scope construction (anchor `c2_root_eq`). -/
def c2rootSt : St :=
  { stC2 with app := { stC2.app with Flags := [1, 0], Commands := [1, 0] } }

/-- The root frame `NewContext` builds for `stC2`: the required `--name`
is pending. -/
def c2Frame : Frame :=
  { scopeFlags := [("help", 0), ("name", 1), ("h", 0)],
    requiredFlags := [("name", 1)],
    scopeCommands := [("help", 0), ("run", 1)] }

/-- The root scope of `stC2`. -/
def c2rootCtx : Context := .mk c2Frame none

/-- The heap after parsing `["run"]` against `stC2`'s root scope (anchor
`c2_parse_eq`): only `run` gained the help flag in its own list. -/
def c2pSt : St :=
  { flags := stC2.flags,
    cmds := [HelpCommand, { runCmd with Flags := [0] }],
    app := c2rootSt.app }

/-- The scope chain after parsing `["run"]`: the `run` scope — whose own
`requiredFlags` is empty — over the root scope still holding the pending
required `--name`. -/
def c2pCtx : Context :=
  .mk { command := some 1, scopeFlags := [("help", 0), ("h", 0)] } (some (.mk c2Frame none))

/-- The heap after `stC2w`'s root scope construction (anchor
`c2w_root_eq`): no commands, so only the help flag is appended. -/
def c2wSt : St := { stC2w with app := { stC2w.app with Flags := [1, 2, 0] } }

/-- The root frame `NewContext` builds for `stC2w`: both required flags
pending. -/
def c2wFrame : Frame :=
  { scopeFlags := [("help", 0), ("name", 1), ("mail", 2), ("h", 0)],
    requiredFlags := [("name", 1), ("mail", 2)] }

/-- The root scope of `stC2w`. -/
def c2wCtx : Context := .mk c2wFrame none

/-- The positionals recorded by parsing `["--", "-c", "x"]` against `stC1`. -/
def c3pos : Option (List String) :=
  match parseArgsAux emptyEnv c1rootSt c1rootCtx none ["--", "-c", "x"] with
  | (_, some ctx, none) => some ctx.GetPositionals
  | _ => none

/-- Int flag `--alpha` (char alias `a`). -/
def alphaFlag : Flag := { Name := "alpha", Char := some 'a', type := .Int, value := .int 0 }

/-- Bool flag `--beta` (char alias `b`). -/
def betaFlag : Flag := { Name := "beta", Char := some 'b', type := .Bool, value := .bool false }

/-- App with only the Int flag `-a` (so `b`, `c` are unknown options). -/
def stC5 : St :=
  { flags := [HelpOption, alphaFlag], cmds := [HelpCommand],
    app := { Name := "app", hasAction := true, Flags := [1], Commands := [] } }

/-- App with Int flag `-a` and Bool flag `-b` (so `-abc` reaches the
compound check with `a` collected as the non-boolean). -/
def stC5b : St :=
  { flags := [HelpOption, alphaFlag, betaFlag], cmds := [HelpCommand],
    app := { Name := "app", hasAction := true, Flags := [1, 2], Commands := [] } }

/-- The heap after `stC5`'s root scope construction (anchor `c5_root_eq`). -/
def c5rootSt : St := { stC5 with app := { stC5.app with Flags := [1, 0] } }

/-- The root scope of `stC5`. -/
def c5rootCtx : Context :=
  .mk { scopeFlags := [("help", 0), ("alpha", 1), ("a", 1), ("h", 0)] } none

/-- The scope at the moment `-abc` fails against `stC5` (anchor
`c5_parse_eq`): `alpha` was already recorded as parsed before the unknown
`b` aborted the compound loop. -/
def c5eCtx : Context :=
  .mk { scopeFlags := [("help", 0), ("alpha", 1), ("a", 1), ("h", 0)],
        parsedFlags := [("alpha", 1)] } none

/-- The heap after `stC5b`'s root scope construction (anchor
`c5b_root_eq`). -/
def c5St : St := { stC5b with app := { stC5b.app with Flags := [1, 2, 0] } }

/-- The root frame `NewContext` builds for `stC5b`. -/
def c5Frame : Frame :=
  { scopeFlags := [("help", 0), ("alpha", 1), ("a", 1), ("beta", 2), ("b", 2), ("h", 0)] }

/-- The root scope of `stC5b`. -/
def c5Ctx : Context := .mk c5Frame none

/-- The heap after the compound loop of `-abc` ran over `stC5b`'s root
scope (anchor `c5_loop_eq`): the boolean `beta` was set true. -/
def c5LoopSt : St :=
  { c5St with flags := [HelpOption, alphaFlag, { betaFlag with value := .bool true }] }

/-- The scope after that compound loop: both `alpha` and `beta` recorded
as parsed. -/
def c5LoopCtx : Context :=
  .mk { c5Frame with parsedFlags := [("alpha", 1), ("beta", 2)] } none

/-- The compound loop over the non-final characters of `-abc` against
`stC5b`'s root scope. -/
def c5Loop : St × Context × Except String (List Char) :=
  compoundLoop c5St c5Ctx [] ['a', 'b']

/-- App with Bool flag `--beta` (char alias `b`) and command `run`. -/
def stC7 : St :=
  { flags := [HelpOption, betaFlag], cmds := [HelpCommand, runCmd],
    app := { Name := "app", hasAction := true, Flags := [1], Commands := [1] } }

/-- The heap after `stC7`'s root scope construction (anchor `c7_root_eq`). -/
def c7St : St :=
  { stC7 with app := { stC7.app with Flags := [1, 0], Commands := [1, 0] } }

/-- The root frame `NewContext` builds for `stC7`. -/
def c7Frame : Frame :=
  { scopeFlags := [("help", 0), ("beta", 1), ("b", 1), ("h", 0)],
    scopeCommands := [("help", 0), ("run", 1)] }

/-- The root scope of `stC7`. -/
def c7Ctx : Context := .mk c7Frame none

/-- Optional String flag `--name` (char alias `n`) with metavar `STR`. -/
def nameFlagC8 : Flag :=
  { Name := "name", Char := some 'n', type := .String, MetaVar := "STR", value := .str "" }

/-- Command `build` with an action. -/
def buildCmd : Command := { Name := "build", hasAction := true }

/-- The C8 scope: exactly one optional String flag `--name` (char alias `n`) `STR` and one
subcommand `build`, the app action present (implicit help entries disabled
so the scope holds exactly the stated flag and command). -/
def stC8 : St :=
  { flags := [HelpOption, nameFlagC8], cmds := [HelpCommand, buildCmd],
    app := { Name := "app", hasAction := true, Flags := [1], Commands := [1],
             DisableHelpOption := true, DisableHelpCommand := true } }

/-- The root scope `NewContext` builds for `stC8` (anchor `c8_root_eq`;
the heap is unchanged because both implicit help entries are disabled). -/
def c8rootCtx : Context :=
  .mk { scopeFlags := [("name", 1), ("n", 1)], scopeCommands := [("build", 1)] } none

/-- The heap after a second root scope construction over `c1rootSt`
(anchor `c6_second_root_eq`): the help flag and help command are appended
again, duplicating them in the app's declaration lists. -/
def c6SecondSt : St :=
  { c1rootSt with
    app := { c1rootSt.app with Flags := [1, 0, 0], Commands := [1, 0, 0] } }

/-- The usage text of the root scope an app builds, rendered at width 80
with executable string `prog`. -/
def rootUsage (st : St) : String :=
  match NewContext emptyEnv st none none with
  | (st2, .ok ctx) => PrintUsage st2 ctx "prog" 80
  | (_, .error e) => e

/-! Theorems.

Anchor lemmas come first: each pins one of the (small) literal states
above to the pipeline value it stands for, so that every later proof
evaluates over literals instead of re-running whole pipelines inside the
kernel. -/

/-- `NewContext` on `stC1` yields the literal root state and scope. -/
theorem c1_root_eq :
    NewContext emptyEnv stC1 none none = (c1rootSt, .ok c1rootCtx) := rfl

/-- Parsing `["-c", "5", "run"]` over `stC1`'s root scope yields the
literal parse state: success, `count = 5` recorded at the root, a fresh
`run` scope selected. -/
theorem c1_parse_eq : c1parse = (c1pSt, some c1pCtx, none) := rfl

/-- `NewContext` on `stC2` yields the literal root state and scope. -/
theorem c2_root_eq :
    NewContext emptyEnv stC2 none none = (c2rootSt, .ok c2rootCtx) := rfl

/-- Parsing `["run"]` over `stC2`'s root scope succeeds and descends into
`run`, whose own required set is empty while the root still holds
`--name`. -/
theorem c2_parse_eq :
    parseArgsAux emptyEnv c2rootSt c2rootCtx none ["run"] =
      (c2pSt, some c2pCtx, none) := rfl

/-- `NewContext` on `stC2w` yields the literal root state and scope (two
pending required flags). -/
theorem c2w_root_eq :
    NewContext emptyEnv stC2w none none = (c2wSt, .ok c2wCtx) := rfl

/-- `NewContext` on `stC5` yields the literal root state and scope. -/
theorem c5_root_eq :
    NewContext emptyEnv stC5 none none = (c5rootSt, .ok c5rootCtx) := rfl

/-- Parsing `["-abc"]` over `stC5`'s root scope fails on the unknown
compound character `b` (after `alpha` was already recorded). -/
theorem c5_parse_eq :
    parseArgsAux emptyEnv c5rootSt c5rootCtx none ["-abc"] =
      (c5rootSt, some c5eCtx, some "unrecognized option: b") := rfl

/-- `NewContext` on `stC5b` yields the literal root state and scope. -/
theorem c5b_root_eq :
    NewContext emptyEnv stC5b none none = (c5St, .ok c5Ctx) := rfl

/-- The compound loop over the non-final characters of `-abc` against
`stC5b`'s root scope completes with `a` collected as non-boolean. -/
theorem c5_loop_eq :
    compoundLoop c5St c5Ctx [] ['a', 'b'] = (c5LoopSt, c5LoopCtx, .ok ['a']) := rfl

/-- `NewContext` on `stC7` yields the literal root state and scope. -/
theorem c7_root_eq :
    NewContext emptyEnv stC7 none none = (c7St, .ok c7Ctx) := rfl

/-- `NewContext` on `stC8` yields the literal root scope (heap unchanged:
both implicit help entries are disabled). -/
theorem c8_root_eq :
    NewContext emptyEnv stC8 none none = (stC8, .ok c8rootCtx) := rfl

/-- A second root scope construction over `c1rootSt` appends the implicit
help entries again. -/
theorem c6_second_root_eq :
    NewContext emptyEnv c1rootSt none none = (c6SecondSt, .ok c1rootCtx) := rfl

/-- Decomposition of `App.Run` on a successful parse: the outcome is the
post-parse verdict on the deepest scope. -/
theorem Run_ok (env : String → String) (st : St) (args : List String)
    (st1 : St) (ctx0 : Context) (st2 : St) (octx : Option Context)
    (h0 : NewContext env st none none = (st1, .ok ctx0))
    (h1 : parseArgsAux env st1 ctx0 none args = (st2, octx, none)) :
    Run env st args = (st2, runVerdict st2 (octx.getD ctx0)) := by
  unfold Run parseArgs
  rw [h0]
  dsimp only
  rw [h1]

/-- Decomposition of `App.Run` on a failed parse: the error is reported. -/
theorem Run_err (env : String → String) (st : St) (args : List String)
    (st1 : St) (ctx0 : Context) (st2 : St) (octx : Option Context) (e : String)
    (h0 : NewContext env st none none = (st1, .ok ctx0))
    (h1 : parseArgsAux env st1 ctx0 none args = (st2, octx, some e)) :
    Run env st args = (st2, .parseError e) := by
  unfold Run parseArgs
  rw [h0]
  dsimp only
  rw [h1]

/-! Helper lemmas. -/

/-- `String.append` acts as list append on the underlying characters. -/
theorem strData_append (a b : String) : (a ++ b).data = a.data ++ b.data := rfl

/-- Each member of the name list appears (with its `--` prefix) inside the
accumulated missing-flags text. -/
theorem requiredNames_infix (k : String) (names : List String) (h : k ∈ names) :
    ∃ s t, s ++ ("--" ++ k).data ++ t = (requiredNames names).data := by
  induction names with
  | nil => cases h
  | cons a r ih =>
    rcases List.mem_cons.mp h with rfl | hm
    · exact ⟨[], (" " ++ requiredNames r).data, by
        simp [requiredNames, strData_append, List.append_assoc]⟩
    · obtain ⟨s, t, hst⟩ := ih hm
      exact ⟨("--" ++ a ++ " ").data ++ s, t, by
        simp [requiredNames, strData_append, List.append_assoc, ← hst]⟩

/-- Each member of the name list appears inside the full
missing-required-flags message. -/
theorem requiredMsg_infix (k : String) (names : List String) (h : k ∈ names) :
    ∃ s t, s ++ ("--" ++ k).data ++ t = (requiredMsg names).data := by
  obtain ⟨s, t, hst⟩ := requiredNames_infix k names h
  exact ⟨("Error: missing argument(s): [ ").data ++ s, t ++ ("]").data, by
    simp [requiredMsg, strData_append, List.append_assoc, ← hst]⟩

/-- The flag-registration loop only mutates the flag heap, never the app. -/
theorem registerFlags_app (env : String → String) :
    ∀ (l : List Nat) (st : St) (fr : Frame),
      ((registerFlags env st fr l).1).app = st.app := by
  intro l
  induction l with
  | nil => intro st fr; rfl
  | cons fid rest ih =>
    intro st fr
    unfold registerFlags
    dsimp only
    split
    · rfl
    · exact ih _ _

/-- Setting a flag slot keeps the heap size. -/
theorem length_setFlag (st : St) (i : Nat) (f : Flag) :
    (st.setFlag i f).flags.length = st.flags.length := by
  simp [St.setFlag]

/-- Reading back a freshly set in-range flag slot. -/
theorem getFlag_setFlag (st : St) (i : Nat) (f : Flag) (h : i < st.flags.length) :
    (st.setFlag i f).getFlag i = f := by
  unfold St.getFlag St.setFlag
  rw [List.getD_eq_getElem?_getD]
  simp [List.getElem?_set_eq_of_lt, h]

/-- Overwriting the same flag slot twice keeps only the second write. -/
theorem setFlag_setFlag (st : St) (i : Nat) (f g : Flag) :
    (st.setFlag i f).setFlag i g = st.setFlag i g := by
  simp [St.setFlag, List.set_set]

/-- The cons equation of `alGet`, stated for an arbitrary pair. -/
theorem alGet_cons (p : String × Nat) (r : List (String × Nat)) (k : String) :
    alGet (p :: r) k = if p.1 = k then some p.2 else alGet r k := by
  rcases p with ⟨k2, v2⟩
  rfl

/-- The in-place overwrite pass of `alPut` updates the looked-up value. -/
theorem alGet_map_put (m : List (String × Nat)) (k : String) (v : Nat) :
    alGet (m.map (fun p => if p.1 = k then (k, v) else p)) k =
      (alGet m k).map (fun _ => v) := by
  induction m with
  | nil => rfl
  | cons p r ih =>
    obtain ⟨k2, v2⟩ := p
    by_cases h : k2 = k
    · subst h
      simp [List.map_cons, alGet_cons]
    · simp [List.map_cons, alGet_cons, h, ih]

/-- Lookup walks past entries with other keys. -/
theorem alGet_append_none (m m2 : List (String × Nat)) (k : String)
    (h : alGet m k = none) : alGet (m ++ m2) k = alGet m2 k := by
  induction m with
  | nil => rfl
  | cons p r ih =>
    obtain ⟨k2, v2⟩ := p
    rw [alGet_cons] at h
    by_cases hp : k2 = k
    · rw [if_pos hp] at h
      cases h
    · rw [if_neg hp] at h
      rw [List.cons_append, alGet_cons, if_neg hp]
      exact ih h

/-- After `m[k] = v`, looking up `k` yields `v`. -/
theorem alGet_alPut_self (m : List (String × Nat)) (k : String) (v : Nat) :
    alGet (alPut m k v) k = some v := by
  unfold alPut
  by_cases h : alHas m k = true
  · rw [if_pos h, alGet_map_put]
    unfold alHas at h
    rcases hx : alGet m k with _ | w
    · rw [hx] at h; simp at h
    · simp
  · rw [if_neg h]
    unfold alHas at h
    rw [alGet_append_none]
    · simp [alGet]
    · rcases hx : alGet m k with _ | w
      · rfl
      · rw [hx] at h; simp at h

/-- After `m[k] = v`, the key `k` is present. -/
theorem alHas_alPut_self (m : List (String × Nat)) (k : String) (v : Nat) :
    alHas (alPut m k v) k = true := by
  simp [alHas, alGet_alPut_self]

/-- The overwrite pass is idempotent. -/
theorem map_put_idem (m : List (String × Nat)) (k : String) (v : Nat) :
    (m.map (fun p => if p.1 = k then (k, v) else p)).map
        (fun p => if p.1 = k then (k, v) else p) =
      m.map (fun p => if p.1 = k then (k, v) else p) := by
  induction m with
  | nil => rfl
  | cons p r ih =>
    obtain ⟨k2, v2⟩ := p
    by_cases h : k2 = k
    · subst h
      simp [List.map_cons, ih]
    · simp [List.map_cons, h, ih]

/-- The overwrite pass is the identity when the key is absent. -/
theorem map_put_of_none (m : List (String × Nat)) (k : String) (v : Nat)
    (h : alGet m k = none) :
    m.map (fun p => if p.1 = k then (k, v) else p) = m := by
  induction m with
  | nil => rfl
  | cons p r ih =>
    obtain ⟨k2, v2⟩ := p
    rw [alGet_cons] at h
    by_cases hp : k2 = k
    · rw [if_pos hp] at h
      cases h
    · rw [if_neg hp] at h
      simp [List.map_cons, hp, ih h]

/-- Writing the same key/value twice equals writing it once. -/
theorem alPut_alPut_self (m : List (String × Nat)) (k : String) (v : Nat) :
    alPut (alPut m k v) k v = alPut m k v := by
  have hh : alHas (alPut m k v) k = true := alHas_alPut_self m k v
  nth_rewrite 1 [alPut]
  rw [if_pos hh]
  unfold alPut
  by_cases h : alHas m k = true
  · rw [if_pos h, map_put_idem]
  · rw [if_neg h]
    unfold alHas at h
    have hnone : alGet m k = none := by
      rcases hx : alGet m k with _ | w
      · rfl
      · rw [hx] at h; simp at h
    rw [List.map_append, map_put_of_none m k v hnone]
    simp

/-- `Flag.Set` on a Bool flag rejects any token other than
(case-insensitive) `true`/`false`, leaving the flag unchanged. -/
theorem flagSet_bool_fail (f : Flag) (v : String) (hty : f.type = .Bool)
    (h1 : asciiLower v ≠ "true") (h2 : asciiLower v ≠ "false") :
    f.Set v = (f, some ("illegal value: " ++ v)) := by
  unfold Flag.Set
  rw [hty]
  simp [h1, h2]

/-- `Flag.Set "true"` on a Bool flag stores `true`. -/
theorem flagSet_bool_true (f : Flag) (hty : f.type = .Bool) :
    f.Set "true" = ({ f with value := .bool true }, none) := by
  unfold Flag.Set
  rw [hty]
  simp [show asciiLower "true" = "true" from rfl]

/-- `SplitN(s, "=", 2)` finds no `=` when the string has none. -/
theorem splitEq_not_mem (cs : List Char) (h : '=' ∉ cs) :
    splitEq cs = (cs, none) := by
  induction cs with
  | nil => rfl
  | cons c r ih =>
    rw [List.mem_cons, not_or] at h
    unfold splitEq
    rw [if_neg (Ne.symm h.1)]
    simp [ih h.2]

/-- One `Ready`-state unfolding of the `parseArgs` loop. -/
theorem parseArgsAux_cons_none (env : String → String) (st : St) (ctx : Context)
    (arg : String) (rest : List String) :
    parseArgsAux env st ctx none (arg :: rest) =
      match readyStep env st ctx arg rest with
      | .inl (st2, ctx2, lf) => parseArgsAux env st2 ctx2 lf rest
      | .inr r => r := by
  simp only [parseArgsAux]

/-- One `AwaitingValue`-state unfolding of the `parseArgs` loop. -/
theorem parseArgsAux_cons_some (env : String → String) (st : St) (ctx : Context)
    (fid : Nat) (arg : String) (rest : List String) :
    parseArgsAux env st ctx (some fid) (arg :: rest) =
      match assignFlag st ctx arg fid with
      | (st2, ctx2, _, some e) => (st2, some ctx2, some e)
      | (st2, ctx2, true, none) => parseArgsAux env st2 ctx2 none rest
      | (st2, ctx2, false, none) =>
        match readyStep env st2 ctx2 arg rest with
        | .inl (st3, ctx3, lf) => parseArgsAux env st3 ctx3 lf rest
        | .inr r => r := by
  simp only [parseArgsAux]

/-- C1 counterexample: with app flag `--count` (char `c`, Int, default 0),
command `run` without flag inheritance, and argv `["-c", "5", "run"]`, the
parse succeeds but the Int lookup for `count` performed inside `run`'s
scope returns `(5, true)` — not `(0, false)` as the claim states: the
lookup walks the parent chain and finds the assigned flag at the root. -/
theorem c1_counterexample :
    c1innerInt = some (5, true) ∧ c1innerInt ≠ some (0, false) := by
  have h : c1innerInt = some (5, true) := rfl
  refine ⟨h, ?_⟩
  rw [h]
  decide

/-- C1 (amended): with the flag, command and argv of the claim, parsing
succeeds, and the Int lookup for `count` returns `(5, true)` both inside
`run`'s scope (the walk continues past the non-inheriting child scope to
the root, so the child does not hide the parent-only flag) and on the
parent (root) scope. -/
theorem c1_theorem :
    c1parse.2.2 = none ∧ c1innerInt = some (5, true) ∧ c1parentInt = some (5, true) :=
  ⟨rfl, rfl, rfl⟩

/-- C2 counterexample: with a required app-level flag `--name` and command
`run`, argv `["run"]` parses without error, yet `Run` dispatches `run`'s
action instead of reporting `--name` as missing: only the deepest scope's
own required set is checked, never the ancestors'. -/
theorem c2_counterexample :
    (Run emptyEnv stC2 ["run"]).2 = .ranCommand "run" ∧
    ∀ msg, (Run emptyEnv stC2 ["run"]).2 ≠ .missingRequired msg := by
  have h := Run_ok emptyEnv stC2 ["run"] c2rootSt c2rootCtx c2pSt (some c2pCtx)
    c2_root_eq c2_parse_eq
  have hv : runVerdict c2pSt ((some c2pCtx).getD c2rootCtx) = .ranCommand "run" := rfl
  rw [h]
  dsimp only
  rw [hv]
  exact ⟨rfl, fun msg hmsg => by cases hmsg⟩

/-- C3 counterexample: in the `Ready` state the token `--` is itself
appended to the positionals (`args[i:]` starts at the `--`), so the
positionals are not just the tokens following it: argv `["--", "-c", "x"]`
yields positionals `["--", "-c", "x"]`, not `["-c", "x"]`. -/
theorem c3_counterexample :
    c3pos = some ["--", "-c", "x"] ∧ c3pos ≠ some ["-c", "x"] := by
  have h : c3pos = some ["--", "-c", "x"] := rfl
  refine ⟨h, ?_⟩
  rw [h]
  decide

/-- C3 (amended): whenever the parser in the `Ready` state reaches a token
equal to `--`, parsing terminates immediately with success, and the tokens
appended to the current scope's positionals are exactly the `--` token
itself followed by all remaining tokens, verbatim and in order (tokens
starting with `-` included). -/
theorem c3_theorem (env : String → String) (st : St) (ctx : Context)
    (rest : List String) :
    parseArgsAux env st ctx none ("--" :: rest) =
      (st, some (ctx.withFrame
        { ctx.frame with positionalArgs := ctx.frame.positionalArgs ++ "--" :: rest }),
       none) := by
  simp [parseArgsAux, readyStep, parseArg, List.isPrefixOf]

/-- C4 anchor: with `count` (Int) pending, the next token `-h` — which
names a flag in scope — raises the expected-value error immediately. -/
theorem c4_parse_eq :
    parseArgsAux emptyEnv c1rootSt c1rootCtx none ["-c", "-h"] =
      (c1rootSt, some c1rootCtx,
       some "error parsing arguments: expected value of type Int, found flag: -h") := rfl

/-- C4 counterexample: with the Int flag `count` awaiting a value, the next
token `-h` (a known flag) raises an error at that point — the claim's "no
error is raised at that point; only a MissingValue at end of input" is
wrong for Int/Float pending flags. -/
theorem c4_counterexample :
    (Run emptyEnv stC1 ["-c", "-h"]).2 =
      .parseError "error parsing arguments: expected value of type Int, found flag: -h" ∧
    (Run emptyEnv stC1 ["-c", "-h"]).2 ≠
      .parseError "The following flag is missing a value: count" := by
  have h := Run_err emptyEnv stC1 ["-c", "-h"] c1rootSt c1rootCtx c1rootSt
    (some c1rootCtx) "error parsing arguments: expected value of type Int, found flag: -h"
    c1_root_eq c4_parse_eq
  rw [h]
  exact ⟨rfl, by decide⟩

/-- C5 counterexample: in the compound token `-abc` with `a` bound to a
non-boolean flag and `b` unknown, parsing fails with `unrecognized option:
b` — not with the non-boolean-in-compound error the claim requires
regardless of `b` and `c`. -/
theorem c5_counterexample :
    (Run emptyEnv stC5 ["-abc"]).2 = .parseError "unrecognized option: b" ∧
    (Run emptyEnv stC5 ["-abc"]).2 ≠ .parseError (compoundMsg ['a'] "-abc") := by
  have h := Run_err emptyEnv stC5 ["-abc"] c5rootSt c5rootCtx c5rootSt (some c5eCtx)
    "unrecognized option: b" c5_root_eq c5_parse_eq
  rw [h]
  exact ⟨rfl, by decide⟩

/-- The first `Run` over `stC1` with no arguments dispatches the app action
and leaves the heap with the help entries appended to the app. -/
theorem c6_run1_eq : Run emptyEnv stC1 [] = (c1rootSt, .ranApp) := by
  have h := Run_ok emptyEnv stC1 [] c1rootSt c1rootCtx c1rootSt (some c1rootCtx)
    c1_root_eq rfl
  rw [h]
  rfl

/-- The usage text the first `Run` over `stC1` would render. -/
theorem c6_usage1_eq : rootUsage stC1 = "Usage: prog [-c value] [-h] [run,help]\x0a" := by
  unfold rootUsage
  rw [c1_root_eq]
  rfl

/-- The usage text the second `Run` (over the mutated heap) would render:
the help flag and help command appear twice. -/
theorem c6_usage2_eq :
    rootUsage c1rootSt = "Usage: prog [-c value] [-h] [-h] [run,help,help]\x0a" := by
  unfold rootUsage
  rw [c6_second_root_eq]
  rfl

/-- C6 counterexample: repeated `Run`s over the same app are not
independent.  With the C1 app, the first `Run` appends the implicit help
flag and help command to the app's declaration lists, so the root scope
built by the second `Run` renders a different usage text (duplicated
`[-h]` and `help`) and the app's flag list has grown. -/
theorem c6_counterexample :
    rootUsage stC1 = "Usage: prog [-c value] [-h] [run,help]\x0a" ∧
    rootUsage (Run emptyEnv stC1 []).1 =
      "Usage: prog [-c value] [-h] [-h] [run,help,help]\x0a" ∧
    rootUsage stC1 ≠ rootUsage (Run emptyEnv stC1 []).1 ∧
    (Run emptyEnv stC1 []).1.app.Flags ≠ stC1.app.Flags := by
  have h2 : rootUsage (Run emptyEnv stC1 []).1 =
      "Usage: prog [-c value] [-h] [-h] [run,help,help]\x0a" := by
    rw [c6_run1_eq]
    exact c6_usage2_eq
  refine ⟨c6_usage1_eq, h2, ?_, ?_⟩
  · rw [c6_usage1_eq, h2]
    decide
  · rw [c6_run1_eq]
    decide

/-- C8: rendering the usage line at width 80 for a scope with exactly one
optional String flag `--name` (char alias `n`, metavar `STR`) and one
subcommand `build`, the app action present, yields exactly
`Usage: prog [-n STR] [build]` followed by a newline (`prog` standing for
the executable string). -/
theorem c8_theorem : rootUsage stC8 = "Usage: prog [-n STR] [build]\x0a" := by
  unfold rootUsage
  rw [c8_root_eq]
  rfl

/-- C9: a lone `-` token is classified as a positional by `parseArg` — never
as a flag, a command, or an error — and the `Ready`-state step appends it
verbatim to the current scope's positionals and continues. -/
theorem c9_theorem (env : String → String) (st : St) (ctx : Context)
    (rest : List String) :
    parseArg st ctx "-" = (st, ctx, .ok (.positional "-")) ∧
    parseArgsAux env st ctx none ("-" :: rest) =
      parseArgsAux env st
        (ctx.withFrame
          { ctx.frame with positionalArgs := ctx.frame.positionalArgs ++ ["-"] })
        none rest := by
  constructor
  · simp [parseArg, List.isPrefixOf]
  · simp [parseArgsAux, readyStep, parseArg, List.isPrefixOf]

/-- C2 (amended): for every argv whose parse terminates without a
ParseError and where the help flag is not set, if the deepest scope's own
required set is non-empty, `Run` reports a single error whose message
names every missing required flag of that scope (each `--name` appears in
the message), and no action is dispatched.  Required flags of ancestor
scopes are not part of this check (see the counterexample). -/
theorem c2_theorem (env : String → String) (st : St) (args : List String)
    (st1 st2 : St) (ctx0 : Context) (octx : Option Context)
    (h0 : NewContext env st none none = (st1, .ok ctx0))
    (h1 : parseArgsAux env st1 ctx0 none args = (st2, octx, none))
    (hhelp : (Context.Bool st2 (octx.getD ctx0) "help").1 = false)
    (hreq : (octx.getD ctx0).frame.requiredFlags ≠ []) :
    (Run env st args).2 =
      .missingRequired
        (requiredMsg ((octx.getD ctx0).frame.requiredFlags.map (fun p => p.1))) ∧
    ∀ p ∈ (octx.getD ctx0).frame.requiredFlags,
      ∃ s t, s ++ ("--" ++ p.1).data ++ t =
        (requiredMsg ((octx.getD ctx0).frame.requiredFlags.map (fun q => q.1))).data := by
  constructor
  · rw [Run_ok env st args st1 ctx0 st2 octx h0 h1]
    dsimp only
    unfold runVerdict
    rw [hhelp]
    have hne : (octx.getD ctx0).frame.requiredFlags.isEmpty = false := by
      rcases hx : (octx.getD ctx0).frame.requiredFlags with _ | ⟨a, r⟩
      · exact absurd hx hreq
      · rfl
    simp [hne]
  · intro p hp
    exact requiredMsg_infix p.1 _ (List.mem_map_of_mem _ hp)

/-- C2 witness: the app with two required root flags (`--name`, `--mail`)
run with no arguments reports one aggregated message naming both. -/
theorem c2_theorem_witness :
    (Run emptyEnv stC2w []).2 =
      .missingRequired
        (requiredMsg (((some c2wCtx).getD c2wCtx).frame.requiredFlags.map (fun p => p.1))) ∧
    ∀ p ∈ ((some c2wCtx).getD c2wCtx).frame.requiredFlags,
      ∃ s t, s ++ ("--" ++ p.1).data ++ t =
        (requiredMsg
          (((some c2wCtx).getD c2wCtx).frame.requiredFlags.map (fun q => q.1))).data :=
  c2_theorem emptyEnv stC2w [] c2wSt c2wSt c2wCtx (some c2wCtx) c2w_root_eq rfl
    (by decide) (by decide)

/-- C4 (amended): a non-Bool pending flag is never silently abandoned:
whenever `assignFlag` reports the token unconsumed, it reports an error
with it (String pending flags always consume the token; Int/Float pending
flags either error immediately — flag-like or unparseable token — or
consume it).  A `MissingValue` error is raised when the input ends while a
non-Bool flag still awaits a value. -/
theorem c4_theorem (env : String → String) (st : St) (ctx : Context) (arg : String)
    (fid : Nat) (hty : (st.getFlag fid).type ≠ .Bool) :
    ((assignFlag st ctx arg fid).2.2.1 = false →
      ((assignFlag st ctx arg fid).2.2.2).isSome = true) ∧
    parseArgsAux env st ctx (some fid) [] =
      (st, some ctx,
       some ("The following flag is missing a value: " ++ (st.getFlag fid).Name)) := by
  constructor
  · unfold assignFlag
    split
    · intro _
      rfl
    · split
      · rw [if_neg hty]
        intro _
        rfl
      · intro hf
        simp at hf
  · show finishParse st ctx (some fid) = _
    unfold finishParse
    dsimp only
    rcases hx : (st.getFlag fid).type with _ | _ | _ | _
    · rfl
    · rfl
    · exact absurd hx hty
    · rfl

/-- C4 witness: the Int flag `count` (heap slot 1 of the C1 root state)
awaiting a value: `assignFlag` can only consume-or-error on any token, and
end of input with `count` pending yields the missing-value error. -/
theorem c4_theorem_witness :
    ((assignFlag c1rootSt c1rootCtx "-h" 1).2.2.1 = false →
      ((assignFlag c1rootSt c1rootCtx "-h" 1).2.2.2).isSome = true) ∧
    parseArgsAux emptyEnv c1rootSt c1rootCtx (some 1) [] =
      (c1rootSt, some c1rootCtx,
       some ("The following flag is missing a value: " ++ (c1rootSt.getFlag 1).Name)) :=
  c4_theorem emptyEnv c1rootSt c1rootCtx "-h" 1 (by decide)

/-- C5 (amended): a compound short token `-<c><chars>` (first character not
`-`) whose non-final-character loop completes — every non-final character
resolves in the alias table and none is duplicated — and collects a
non-empty set of non-boolean characters is rejected with the
non-boolean-in-compound error.  (When the loop instead hits an unknown or
duplicated character first, that error is reported — see the
counterexample.) -/
theorem c5_theorem (st st2 : St) (ctx ctx2 : Context) (chars nbs : List Char) (c : Char)
    (hhd : c ≠ '-')
    (hloop : compoundLoop st ctx [] ((c :: chars).dropLast) = (st2, ctx2, .ok nbs))
    (hnb : nbs ≠ []) :
    parseArg st ctx (String.mk ('-' :: c :: chars)) =
      (st2, ctx2, .error (compoundMsg nbs (String.mk ('-' :: c :: chars)))) := by
  have e3 : (String.mk ('-' :: c :: chars)).data = '-' :: c :: chars := rfl
  have hpfx2 : ("--").data.isPrefixOf ('-' :: c :: chars) = false := by
    show ['-', '-'].isPrefixOf ('-' :: c :: chars) = false
    simp [List.isPrefixOf, Ne.symm hhd]
  have hpfx1 : ("-").data.isPrefixOf ('-' :: c :: chars) = true := by
    show ['-'].isPrefixOf ('-' :: c :: chars) = true
    simp [List.isPrefixOf]
  have hne : ¬(String.mk ('-' :: c :: chars) = "-") := by
    intro h
    have h2 := congrArg String.data h
    simp at h2
  have hemp : nbs.isEmpty = false := by
    rcases nbs with _ | ⟨a, r⟩
    · exact absurd rfl hnb
    · rfl
  unfold parseArg
  rw [e3, hpfx2, hpfx1]
  simp only [Bool.false_eq_true, if_false, if_true, hne]
  dsimp only [List.drop]
  rw [hloop]
  dsimp only
  rw [hemp]
  rfl

/-- C5 witness: `-abc` against the app holding Int `-a` and Bool `-b`: the
loop over the non-final characters `a`, `b` completes collecting `a`, and
`parseArg` reports the compound error. -/
theorem c5_theorem_witness :
    parseArg c5St c5Ctx (String.mk ('-' :: 'a' :: ['b', 'c'])) =
      (c5LoopSt, c5LoopCtx,
       .error (compoundMsg ['a'] (String.mk ('-' :: 'a' :: ['b', 'c'])))) :=
  c5_theorem c5St c5LoopSt c5Ctx c5LoopCtx ['b', 'c'] ['a'] 'a' (by decide) c5_loop_eq
    (by decide)

/-- `finishScope` never touches the app declaration. -/
theorem finishScope_app (env : String → String) (parent : Option Context) (st : St)
    (fr : Frame) (flags : List Nat) :
    ((finishScope env parent st fr flags).1).app = st.app := by
  unfold finishScope
  rcases hR : registerFlags env st fr flags with ⟨stR, frR, erR⟩
  have happ := registerFlags_app env flags st fr
  rw [hR] at happ
  rcases erR with _ | e
  · simpa using happ
  · simpa using happ

/-- C6 (amended): repeated parses over the same App are not independent —
the root scope construction itself mutates the App declaration: whenever
the implicit help flag is enabled, `NewContext` appends `HelpOption` to
`app.Flags` (and, when the help command is enabled and commands exist,
`HelpCommand` to `app.Commands`), and this mutation persists into the
next `Run`, which appends again. -/
theorem c6_theorem (env : String → String) (st : St)
    (hopt : st.app.DisableHelpOption = false) :
    ((NewContext env st none none).1).app.Flags = st.app.Flags ++ [HelpOptionId] ∧
    (st.app.DisableHelpCommand = false → st.app.Commands ≠ [] →
      ((NewContext env st none none).1).app.Commands =
        st.app.Commands ++ [HelpCommandId]) := by
  have hopt2 : (!st.app.DisableHelpOption) = true := by rw [hopt]; rfl
  unfold NewContext
  by_cases hcmd : (!st.app.DisableHelpCommand && !st.app.Commands.isEmpty) = true
  · rw [if_pos hcmd]
    dsimp only
    rw [if_pos hopt2]
    dsimp only
    constructor
    · rw [finishScope_app]
    · intro _ _
      rw [finishScope_app]
  · rw [if_neg hcmd]
    dsimp only
    rw [if_pos hopt2]
    dsimp only
    constructor
    · rw [finishScope_app]
    · intro hdc hcne
      exfalso
      apply hcmd
      rw [hdc]
      have : st.app.Commands.isEmpty = false := by
        rcases hx : st.app.Commands with _ | ⟨a, r⟩
        · exact absurd hx hcne
        · rfl
      rw [this]
      rfl

/-- C6 witness: for the C1 app the root scope construction appends the
help flag and help command to the app's lists. -/
theorem c6_theorem_witness :
    ((NewContext emptyEnv stC1 none none).1).app.Flags =
      stC1.app.Flags ++ [HelpOptionId] ∧
    (stC1.app.DisableHelpCommand = false → stC1.app.Commands ≠ [] →
      ((NewContext emptyEnv stC1 none none).1).app.Commands =
        stC1.app.Commands ++ [HelpCommandId]) :=
  c6_theorem emptyEnv stC1 rfl

/-- C7: when `parseArg` classifies a token as a Bool flag (which is what
the bare long form `--name` and the final position of a short token do),
the `Ready` step records the flag as parsed with value `true` and makes it
pending; a following token that is not (case-insensitive) `true`/`false`
is not consumed as its value: `assignFlag` re-sets the flag to `true`
without error and without consuming, and the parse continues by
re-processing that token as the next ordinary token in the `Ready` state
against the same scope. -/
theorem c7_theorem (env : String → String) (st st1 : St) (ctx ctx1 : Context)
    (arg tok : String) (rest : List String) (fid : Nat)
    (hcls : parseArg st ctx arg = (st1, ctx1, .ok (.flag fid)))
    (hfid : fid < st1.flags.length)
    (hty : (st1.getFlag fid).type = .Bool)
    (ht1 : asciiLower tok ≠ "true")
    (ht2 : asciiLower tok ≠ "false") :
    readyStep env st ctx arg (tok :: rest) =
      .inl (st1.setFlag fid { st1.getFlag fid with value := .bool true },
        ctx1.withFrame
          { ctx1.frame with
            parsedFlags := alPut ctx1.frame.parsedFlags (st1.getFlag fid).Name fid },
        some fid) ∧
    parseArgsAux env st ctx none (arg :: tok :: rest) =
      parseArgsAux env (st1.setFlag fid { st1.getFlag fid with value := .bool true })
        (ctx1.withFrame
          { ctx1.frame with
            parsedFlags := alPut ctx1.frame.parsedFlags (st1.getFlag fid).Name fid })
        none (tok :: rest) ∧
    ((st1.setFlag fid { st1.getFlag fid with value := .bool true }).getFlag fid).value =
      .bool true ∧
    alHas (alPut ctx1.frame.parsedFlags (st1.getFlag fid).Name fid)
      (st1.getFlag fid).Name = true := by
  set fT : Flag := { st1.getFlag fid with value := .bool true } with hfT
  set stT : St := st1.setFlag fid fT with hstT
  set ctxT : Context :=
    ctx1.withFrame
      { ctx1.frame with
        parsedFlags := alPut ctx1.frame.parsedFlags (st1.getFlag fid).Name fid } with hctxT
  have hgf : stT.getFlag fid = fT := getFlag_setFlag st1 fid fT hfid
  have hfTty : fT.type = .Bool := hty
  have hready : readyStep env st ctx arg (tok :: rest) = .inl (stT, ctxT, some fid) := by
    unfold readyStep
    rw [hcls]
    dsimp only
    rw [if_pos hty]
  have hchk : assignFlagCheck ctxT tok fT = none := by
    unfold assignFlagCheck
    rw [if_neg]
    intro hand
    exact hand.1 hfTty
  have hA : assignFlag stT ctxT tok fid = (stT, ctxT, false, none) := by
    unfold assignFlag
    rw [hgf, hchk]
    dsimp only
    rw [flagSet_bool_fail fT tok hfTty ht1 ht2]
    dsimp only
    rw [if_pos hfTty]
    rw [flagSet_bool_true fT hfTty]
    dsimp only
    rw [hstT, setFlag_setFlag]
  refine ⟨hready, ?_, ?_, ?_⟩
  · rw [parseArgsAux_cons_none env st ctx arg (tok :: rest), hready]
    dsimp only
    rw [parseArgsAux_cons_some env stT ctxT fid tok rest, hA]
    dsimp only
    rw [parseArgsAux_cons_none env stT ctxT tok rest]
  · rw [hgf]
  · exact alHas_alPut_self _ _ _

/-- C7 witness: Bool flag `--beta` of the C7 app followed by the token
`pos1`: the flag ends true and recorded as set, and `pos1` is re-processed
as an ordinary token. -/
theorem c7_theorem_witness :
    readyStep emptyEnv c7St c7Ctx "--beta" ("pos1" :: []) =
      .inl (c7St.setFlag 1 { c7St.getFlag 1 with value := .bool true },
        c7Ctx.withFrame
          { c7Ctx.frame with
            parsedFlags := alPut c7Ctx.frame.parsedFlags (c7St.getFlag 1).Name 1 },
        some 1) ∧
    parseArgsAux emptyEnv c7St c7Ctx none ("--beta" :: "pos1" :: []) =
      parseArgsAux emptyEnv (c7St.setFlag 1 { c7St.getFlag 1 with value := .bool true })
        (c7Ctx.withFrame
          { c7Ctx.frame with
            parsedFlags := alPut c7Ctx.frame.parsedFlags (c7St.getFlag 1).Name 1 })
        none ("pos1" :: []) ∧
    ((c7St.setFlag 1 { c7St.getFlag 1 with value := .bool true }).getFlag 1).value =
      .bool true ∧
    alHas (alPut c7Ctx.frame.parsedFlags (c7St.getFlag 1).Name 1)
      (c7St.getFlag 1).Name = true :=
  c7_theorem emptyEnv c7St c7St c7Ctx c7Ctx "--beta" "pos1" [] 1 rfl (by decide)
    (by decide) (by decide) (by decide)

/-- C10: `Set` of the typed flags (`flag.go`) is not atomic on constraint
violation: for String/Int/Float, when the token parses but the constraint
check fails (choice set or range), the value slot already holds the parsed
token's value and `Set` returns the error without restoring the previous
value (for String, an already-initialized environment binding assumed, so
the env read does not overwrite the assignment). -/
theorem c10_theorem (env : String → String)
    (sf : StringFlag) (sv : String)
    (ifl : IntFlag) (iv : String) (n : Int)
    (ffl : FloatFlag) (fv : String) (q : ℚ)
    (hs1 : ¬sf.Name = "") (hs2 : sf.isInitialized = true)
    (hs3 : sf.Choices.isEmpty = false) (hs4 : sf.Choices.contains sv = false)
    (hi1 : ¬ifl.Name = "") (hi2 : parseInt? iv = some n)
    (hi3 : n < ifl.Range.1 ∨ n > ifl.Range.2)
    (hf1 : ¬ffl.Name = "") (hf2 : parseFloat? fv = some q)
    (hf3 : ffl.Range.1 ≠ ffl.Range.2)
    (hf4 : q < ffl.Range.1 ∨ q > ffl.Range.2) :
    ((StringFlag.Set env sf sv).1.Value = sv ∧
      (StringFlag.Set env sf sv).2.isSome = true) ∧
    ((IntFlag.Set ifl iv).1.Value = n ∧ (IntFlag.Set ifl iv).2.isSome = true) ∧
    ((FloatFlag.Set ffl fv).1.Value = q ∧ (FloatFlag.Set ffl fv).2.isSome = true) := by
  have hmem : sv ∉ sf.Choices := by simpa using hs4
  refine ⟨⟨?_, ?_⟩, ⟨?_, ?_⟩, ⟨?_, ?_⟩⟩
  · unfold StringFlag.Set StringFlag.Validate
    rw [if_neg hs1, hs2]
    simp [hs3, hmem]
  · unfold StringFlag.Set StringFlag.Validate
    rw [if_neg hs1, hs2]
    simp [hs3, hmem]
  · unfold IntFlag.Set
    rw [hi2]
  · unfold IntFlag.Set
    rw [hi2]
    dsimp only
    unfold IntFlag.Validate
    rw [if_neg hi1]
    rcases hi3 with h | h
    · rw [if_pos h]
      rfl
    · by_cases hlt : n < ifl.Range.1
      · rw [if_pos hlt]
        rfl
      · rw [if_neg hlt, if_pos h]
        rfl
  · unfold FloatFlag.Set
    rw [hf2]
  · unfold FloatFlag.Set
    rw [hf2]
    dsimp only
    unfold FloatFlag.Validate
    rw [if_neg hf1, if_pos hf3]
    rcases hf4 with h | h
    · rw [if_pos h]
      rfl
    · by_cases hlt : q < ffl.Range.1
      · rw [if_pos hlt]
        rfl
      · rw [if_neg hlt, if_pos h]
        rfl

/-- C10 witness: a choice-constrained String flag set to a token outside
its choice set, an Int flag with range 1..5 set to `9`, and a Float flag
with range 0..1 set to `5`: each `Set` errors with the rejected value
left in the slot. -/
theorem c10_theorem_witness :
    ((StringFlag.Set emptyEnv
        { Name := "mode", Choices := ["a", "b"], isInitialized := true } "z").1.Value = "z" ∧
      (StringFlag.Set emptyEnv
        { Name := "mode", Choices := ["a", "b"], isInitialized := true } "z").2.isSome = true) ∧
    ((IntFlag.Set { Name := "count", Range := (1, 5) } "9").1.Value = 9 ∧
      (IntFlag.Set { Name := "count", Range := (1, 5) } "9").2.isSome = true) ∧
    ((FloatFlag.Set { Name := "frac", Range := (0, 1) } "5").1.Value = 5 ∧
      (FloatFlag.Set { Name := "frac", Range := (0, 1) } "5").2.isSome = true) :=
  c10_theorem emptyEnv
    { Name := "mode", Choices := ["a", "b"], isInitialized := true } "z"
    { Name := "count", Range := (1, 5) } "9" 9
    { Name := "frac", Range := (0, 1) } "5" 5
    (by decide) rfl rfl rfl
    (by decide) (by decide) (by decide)
    (by decide) (by decide) (by decide) (by decide)

end CliModel
